import Mathlib

/-!
Verification development for the SolRoute Orca Whirlpool adapter.

This file shallowly embeds the adapter's pure computational core:
the account codec (`WhirlpoolPool.Decode`, `WhirlpoolPool.Offset`),
the fixed-point math library (`whirlpoolMulDivFloor`, `whirlpoolMulDivCeil`,
the liquidity/amount conversions and next-sqrt-price solvers), the swap-step
and swap computation (`whirlpoolSwapStepComputePrecise`, `whirlpoolSwapCompute`,
`WhirlpoolPool.Quote`), the tick-array window derivation
(`DeriveMultipleWhirlpoolTickArrayPDAs`) and the SwapV2 instruction builder
(`createWhirlpoolSwapV2Instruction`).

Modelling conventions:
* Go `cosmath.Int` / `*big.Int` values are Lean `ℤ`; `uint16`/`uint64`/`uint128`
  struct fields are `ℕ`.
* Go `Quo` (cosmath `Quo`, `big.Int.Quo`) is truncated division `Int.tdiv`;
  Go `big.Int.Div`/`Mod` are Euclidean `Int.ediv`/`Int.emod`; Go `%` on
  machine ints is `Int.tmod`.
* Go run-time panics and returned `error` values are both modelled as the
  `Except`-error outcome, with `GoFail.panic` for panics and `GoFail.err`
  for ordinary returned errors.
* The zero value `cosmath.Int{}` (the "nil Int", whose methods panic when it
  is used) is modelled as `none : Option ℤ`; `cosBigInt` models the first
  use of such a value (`.BigInt()`, `.Mul`, ...), which panics on nil.
* Solana public keys are modelled as their 32 raw bytes, `List ℕ`.
-/

namespace SolRoute

/-- Outcome of a Go computation that can panic or return an error. -/
inductive GoFail where
  | panic : GoFail
  | err : GoFail
  deriving DecidableEq, Repr

/-- Result monad for embedded Go functions. -/
abbrev GoE (α : Type) := Except GoFail α

/-- Model of a `cosmath.Int` value that may be the nil zero value `cosmath.Int{}`. -/
abbrev CosInt := Option ℤ

/-- Using a possibly-nil `cosmath.Int` (e.g. calling `.BigInt()` or passing it to
an arithmetic method) panics when the value is nil. -/
def cosBigInt : CosInt → GoE ℤ
  | none => .error .panic
  | some n => .ok n

/-- Embeds `whirlpoolMulDivFloor` (src/unnamed/part_002): `a.Mul(b).Quo(denominator)`
with an explicit panic when the denominator is zero. `Quo` is truncated division. -/
def whirlpoolMulDivFloor (a b denominator : ℤ) : GoE ℤ :=
  if denominator = 0 then .error .panic
  else .ok ((a * b).tdiv denominator)

/-- Embeds `whirlpoolMulDivCeil` (src/unnamed/part_002): returns the nil zero-value
`cosmath.Int{}` when the denominator is zero, otherwise
`(a*b + (denominator-1)).Quo(denominator)`. -/
def whirlpoolMulDivCeil (a b denominator : ℤ) : CosInt :=
  if denominator = 0 then none
  else some ((a * b + (denominator - 1)).tdiv denominator)

/-- Embeds `whirlpoolMulDivRoundingUp` (src/unnamed/part_002): `big.Int.Div`
(Euclidean) plus one when the Euclidean remainder is nonzero; `big.Int.Div`
panics on a zero divisor. -/
def whirlpoolMulDivRoundingUp (a b denominator : ℤ) : GoE ℤ :=
  if denominator = 0 then .error .panic
  else
    let numerator := a * b
    let q := numerator.ediv denominator
    .ok (if numerator.emod denominator ≠ 0 then q + 1 else q)

/-- The conditional swap `if priceA.Cmp(priceB) > 0 { priceA, priceB = priceB, priceA }`
performed at the top of both token-amount functions. -/
def sortPair (a b : ℤ) : ℤ × ℤ :=
  if b < a then (b, a) else (a, b)

/-- Embeds `whirlpoolGetTokenAmountAFromLiquidity` (src/unnamed/part_002):
sorts the two sqrt prices, panics when the lower bound is not positive, then
computes `(liquidity << 64) * (priceB - priceA) / (priceB * priceA)` rounding
up or down. -/
def whirlpoolGetTokenAmountAFromLiquidity
    (sqrtPriceX64A sqrtPriceX64B liquidity : ℤ) (roundUp : Bool) : GoE ℤ :=
  let p := sortPair sqrtPriceX64A sqrtPriceX64B
  let priceA := p.1
  let priceB := p.2
  if priceA ≤ 0 then .error .panic
  else
    let numerator1 := liquidity * 2 ^ 64
    let numerator2 := priceB - priceA
    if roundUp then do
      let temp ← cosBigInt (whirlpoolMulDivCeil numerator1 numerator2 priceB)
      cosBigInt (whirlpoolMulDivCeil temp 1 priceA)
    else do
      let temp ← whirlpoolMulDivFloor numerator1 numerator2 priceB
      .ok (temp.tdiv priceA)

/-- Embeds `whirlpoolGetTokenAmountBFromLiquidity` (src/unnamed/part_002):
sorts the two sqrt prices, panics when the lower bound is not positive, then
computes `liquidity * (priceB - priceA) / 2^64` rounding up or down. -/
def whirlpoolGetTokenAmountBFromLiquidity
    (sqrtPriceX64A sqrtPriceX64B liquidity : ℤ) (roundUp : Bool) : GoE ℤ :=
  let p := sortPair sqrtPriceX64A sqrtPriceX64B
  let priceA := p.1
  let priceB := p.2
  if priceA ≤ 0 then .error .panic
  else
    let priceDiff := priceB - priceA
    let denominator : ℤ := 2 ^ 64
    if roundUp then cosBigInt (whirlpoolMulDivCeil liquidity priceDiff denominator)
    else whirlpoolMulDivFloor liquidity priceDiff denominator

/-- Embeds `whirlpoolGetNextSqrtPriceFromTokenAmountARoundingUp`
(src/unnamed/part_002). -/
def whirlpoolGetNextSqrtPriceFromTokenAmountARoundingUp
    (sqrtPriceX64 liquidity amount : ℤ) (add : Bool) : GoE ℤ :=
  if amount = 0 then .ok sqrtPriceX64
  else
    let liquidityLeftShift := liquidity * 2 ^ 64
    if add then
      let numerator1 := liquidityLeftShift
      let denominator := liquidityLeftShift + amount * sqrtPriceX64
      if numerator1 ≤ denominator then
        cosBigInt (whirlpoolMulDivCeil numerator1 sqrtPriceX64 denominator)
      else
        if sqrtPriceX64 = 0 then .error .panic
        else
          let temp := numerator1.ediv sqrtPriceX64 + amount
          whirlpoolMulDivRoundingUp numerator1 1 temp
    else
      let amountMulSqrtPrice := amount * sqrtPriceX64
      if liquidityLeftShift ≤ amountMulSqrtPrice then .error .panic
      else
        let denominator := liquidityLeftShift - amountMulSqrtPrice
        cosBigInt (whirlpoolMulDivCeil liquidityLeftShift sqrtPriceX64 denominator)

/-- Embeds `whirlpoolGetNextSqrtPriceFromTokenAmountBRoundingDown`
(src/unnamed/part_002). -/
def whirlpoolGetNextSqrtPriceFromTokenAmountBRoundingDown
    (sqrtPriceX64 liquidity amount : ℤ) (add : Bool) : GoE ℤ :=
  let deltaY := amount * 2 ^ 64
  if add then
    if liquidity = 0 then .error .panic
    else .ok (sqrtPriceX64 + deltaY.ediv liquidity)
  else do
    let amountDivLiquidity ← whirlpoolMulDivRoundingUp deltaY 1 liquidity
    if sqrtPriceX64 ≤ amountDivLiquidity then .error .panic
    else .ok (sqrtPriceX64 - amountDivLiquidity)

/-- Embeds `whirlpoolGetNextSqrtPriceX64FromInput` (src/unnamed/part_002). -/
def whirlpoolGetNextSqrtPriceX64FromInput
    (sqrtPriceX64Current liquidity amount : ℤ) (zeroForOne : Bool) : GoE ℤ :=
  if sqrtPriceX64Current ≤ 0 then .error .panic
  else if liquidity ≤ 0 then .error .panic
  else if amount = 0 then .ok sqrtPriceX64Current
  else if zeroForOne then
    whirlpoolGetNextSqrtPriceFromTokenAmountARoundingUp
      sqrtPriceX64Current liquidity amount true
  else
    whirlpoolGetNextSqrtPriceFromTokenAmountBRoundingDown
      sqrtPriceX64Current liquidity amount true

/-- Embeds `whirlpoolGetNextSqrtPriceX64FromOutput` (src/unnamed/part_002). -/
def whirlpoolGetNextSqrtPriceX64FromOutput
    (sqrtPriceX64Current liquidity amount : ℤ) (zeroForOne : Bool) : GoE ℤ :=
  if sqrtPriceX64Current ≤ 0 then .error .panic
  else if liquidity ≤ 0 then .error .panic
  else if zeroForOne then
    whirlpoolGetNextSqrtPriceFromTokenAmountBRoundingDown
      sqrtPriceX64Current liquidity amount false
  else
    whirlpoolGetNextSqrtPriceFromTokenAmountARoundingUp
      sqrtPriceX64Current liquidity amount false

/-- Price-limit constants from the adapter's constants file. -/
def MIN_SQRT_PRICE_X64 : ℤ := 4295048016

/-- Upper price-limit constant from the adapter's constants file. -/
def MAX_SQRT_PRICE_X64 : ℤ := 79226673521066979257578248091

/-- Fee-rate denominator: fee rates are parts per million. -/
def FEE_RATE_DENOMINATOR : ℤ := 1000000

/-- Mirror of the Go `WhirlpoolSwapStep` result (next sqrt price, amount in,
amount out, fee amount). -/
structure WhirlpoolSwapStep where
  sqrtPriceX64Next : ℤ
  amountIn : ℤ
  amountOut : ℤ
  feeAmount : ℤ
  deriving DecidableEq, Repr

/-- Steps 2 and 3 of `whirlpoolSwapStepComputePrecise` (src/unnamed/part_002):
recompute the exact amounts for the realized price movement, compute the fee,
then apply the 90% safety margin and the minimum-output substitution. Factored
out of the main function so that both the exact-input and exact-output entry
branches can share it, exactly as the straight-line Go code does after its
initial `if baseInput` block. -/
def whirlpoolSwapStepFinish
    (sqrtPriceX64Current sqrtPriceX64Target liquidity amountRemaining r : ℤ)
    (zeroForOne baseInput : Bool) (next amountIn0 amountOut0 : ℤ) :
    GoE WhirlpoolSwapStep := do
  let reachTargetPrice := next = sqrtPriceX64Target
  let amountIn ←
    if reachTargetPrice ∧ baseInput = true then pure amountIn0
    else if zeroForOne then
      whirlpoolGetTokenAmountAFromLiquidity next sqrtPriceX64Current liquidity true
    else
      whirlpoolGetTokenAmountBFromLiquidity sqrtPriceX64Current next liquidity true
  let amountOut ←
    if reachTargetPrice ∧ baseInput = false then pure amountOut0
    else if zeroForOne then
      whirlpoolGetTokenAmountBFromLiquidity next sqrtPriceX64Current liquidity false
    else
      whirlpoolGetTokenAmountAFromLiquidity sqrtPriceX64Current next liquidity false
  let feeAmount ←
    if baseInput = true ∧ ¬ next = sqrtPriceX64Target then
      pure (amountRemaining - amountIn)
    else
      cosBigInt (whirlpoolMulDivCeil amountIn r (FEE_RATE_DENOMINATOR - r))
  let adjustedAmountOut := (amountOut * 90).tdiv 100
  let adjustedAmountOut :=
    if adjustedAmountOut = 0 ∧ 0 < amountOut then 1 else adjustedAmountOut
  pure ⟨next, amountIn, adjustedAmountOut, feeAmount⟩

/-- Embeds `whirlpoolSwapStepComputePrecise` (src/unnamed/part_002). The fee
rate is the Go `uint32` argument, hence a natural number. -/
def whirlpoolSwapStepComputePrecise
    (sqrtPriceX64Current sqrtPriceX64Target liquidity amountRemaining : ℤ)
    (feeRate : ℕ) (zeroForOne : Bool) : GoE WhirlpoolSwapStep :=
  let r : ℤ := feeRate
  if 0 ≤ amountRemaining then do
    let amountRemainingSubtractFee ←
      whirlpoolMulDivFloor amountRemaining (FEE_RATE_DENOMINATOR - r)
        FEE_RATE_DENOMINATOR
    let amountInMax ←
      if zeroForOne then
        whirlpoolGetTokenAmountAFromLiquidity
          sqrtPriceX64Target sqrtPriceX64Current liquidity true
      else
        whirlpoolGetTokenAmountBFromLiquidity
          sqrtPriceX64Current sqrtPriceX64Target liquidity true
    let next ←
      if amountInMax ≤ amountRemainingSubtractFee then pure sqrtPriceX64Target
      else
        whirlpoolGetNextSqrtPriceX64FromInput
          sqrtPriceX64Current liquidity amountRemainingSubtractFee zeroForOne
    whirlpoolSwapStepFinish sqrtPriceX64Current sqrtPriceX64Target liquidity
      amountRemaining r zeroForOne true next amountInMax 0
  else do
    let amountOutMax ←
      if zeroForOne then
        whirlpoolGetTokenAmountBFromLiquidity
          sqrtPriceX64Target sqrtPriceX64Current liquidity false
      else
        whirlpoolGetTokenAmountAFromLiquidity
          sqrtPriceX64Current sqrtPriceX64Target liquidity false
    let next ←
      if amountOutMax ≤ -amountRemaining then pure sqrtPriceX64Target
      else
        whirlpoolGetNextSqrtPriceX64FromOutput
          sqrtPriceX64Current liquidity (-amountRemaining) zeroForOne
    whirlpoolSwapStepFinish sqrtPriceX64Current sqrtPriceX64Target liquidity
      amountRemaining r zeroForOne false next 0 amountOutMax

/-- A raw account byte. -/
abbrev Byte := Fin 256

/-- Little-endian interpretation of a byte list as an unsigned integer, the
semantics shared by `binary.LittleEndian.Uint16/32/64` and `uint128.FromBytes`. -/
def leNat (bs : List Byte) : ℕ :=
  bs.foldr (fun b acc => b.val + 256 * acc) 0

/-- Reinterpretation of a `uint32` bit pattern as Go `int32`, as in
`int32(binary.LittleEndian.Uint32(...))`. -/
def toInt32 (n : ℕ) : ℤ :=
  if n < 2 ^ 31 then (n : ℤ) else (n : ℤ) - 2 ^ 32

/-- Go slice expression `d[o : o+n]`: panics (`none`) when the bounds exceed
the slice length. -/
def readBytes (d : List Byte) (o n : ℕ) : Option (List Byte) :=
  if o + n ≤ d.length then some ((d.drop o).take n) else none

/-- Mirror of the Go `WhirlpoolRewardInfo` struct. -/
structure WhirlpoolRewardInfo where
  mint : List Byte
  vault : List Byte
  authority : List Byte
  emissionsPerSecondX64 : ℕ
  growthGlobalX64 : ℕ
  deriving DecidableEq, Repr

/-- The Go zero value of `WhirlpoolRewardInfo`. -/
def WhirlpoolRewardInfo.zero : WhirlpoolRewardInfo :=
  ⟨List.replicate 32 0, List.replicate 32 0, List.replicate 32 0, 0, 0⟩

/-- Mirror of the Go `WhirlpoolPool` struct (src/pkg/pool/orca/whirlpoolPool.go).
Public keys and raw byte fields are byte lists; unsigned integer fields are `ℕ`;
the signed `tickCurrentIndex` is `ℤ`. The fixed array `RewardInfos [3]` is
spelled as three fields. -/
structure WhirlpoolPool where
  discriminator : List Byte
  whirlpoolsConfig : List Byte
  whirlpoolBump : List Byte
  tickSpacing : ℕ
  feeTierIndexSeed : List Byte
  feeRate : ℕ
  protocolFeeRate : ℕ
  liquidity : ℕ
  sqrtPrice : ℕ
  tickCurrentIndex : ℤ
  protocolFeeOwedA : ℕ
  protocolFeeOwedB : ℕ
  tokenMintA : List Byte
  tokenVaultA : List Byte
  feeGrowthGlobalA : ℕ
  tokenMintB : List Byte
  tokenVaultB : List Byte
  feeGrowthGlobalB : ℕ
  rewardLastUpdatedTimestamp : ℕ
  rewardInfo0 : WhirlpoolRewardInfo
  rewardInfo1 : WhirlpoolRewardInfo
  rewardInfo2 : WhirlpoolRewardInfo
  poolId : List Byte
  userBaseAccount : List Byte
  userQuoteAccount : List Byte
  deriving DecidableEq, Repr

/-- The Go zero value `&WhirlpoolPool{}` used by every caller of `Decode`. -/
def WhirlpoolPool.zero : WhirlpoolPool where
  discriminator := List.replicate 8 0
  whirlpoolsConfig := List.replicate 32 0
  whirlpoolBump := List.replicate 1 0
  tickSpacing := 0
  feeTierIndexSeed := List.replicate 2 0
  feeRate := 0
  protocolFeeRate := 0
  liquidity := 0
  sqrtPrice := 0
  tickCurrentIndex := 0
  protocolFeeOwedA := 0
  protocolFeeOwedB := 0
  tokenMintA := List.replicate 32 0
  tokenVaultA := List.replicate 32 0
  feeGrowthGlobalA := 0
  tokenMintB := List.replicate 32 0
  tokenVaultB := List.replicate 32 0
  feeGrowthGlobalB := 0
  rewardLastUpdatedTimestamp := 0
  rewardInfo0 := WhirlpoolRewardInfo.zero
  rewardInfo1 := WhirlpoolRewardInfo.zero
  rewardInfo2 := WhirlpoolRewardInfo.zero
  poolId := List.replicate 32 0
  userBaseAccount := List.replicate 32 0
  userQuoteAccount := List.replicate 32 0

/-- Embeds `WhirlpoolPool.Decode` (src/pkg/pool/orca/whirlpoolPool.go lines
88-192 and src/unnamed/part_002 lines 102-206, identical). The receiver is
updated field by field in source order; the boolean result is `true` when a
slice expression went out of range (a Go run-time panic), in which case the
fields assigned before the failing read keep their new values. On the success
path the Go function always returns a nil error: there is no length check and
no `BufferTooShort` outcome. -/
def WhirlpoolPool.Decode (p : WhirlpoolPool) (data : List Byte) :
    WhirlpoolPool × Bool :=
  let d := if 8 < data.length then data.drop 8 else data
  match readBytes d 0 32 with
  | none => (p, true)
  | some v =>
  let p := { p with whirlpoolsConfig := v }
  match readBytes d 32 1 with
  | none => (p, true)
  | some v =>
  let p := { p with whirlpoolBump := v }
  match readBytes d 33 2 with
  | none => (p, true)
  | some v =>
  let p := { p with tickSpacing := leNat v }
  match readBytes d 35 2 with
  | none => (p, true)
  | some v =>
  let p := { p with feeTierIndexSeed := v }
  match readBytes d 37 2 with
  | none => (p, true)
  | some v =>
  let p := { p with feeRate := leNat v }
  match readBytes d 39 2 with
  | none => (p, true)
  | some v =>
  let p := { p with protocolFeeRate := leNat v }
  match readBytes d 41 16 with
  | none => (p, true)
  | some v =>
  let p := { p with liquidity := leNat v }
  match readBytes d 57 16 with
  | none => (p, true)
  | some v =>
  let p := { p with sqrtPrice := leNat v }
  match readBytes d 73 4 with
  | none => (p, true)
  | some v =>
  let p := { p with tickCurrentIndex := toInt32 (leNat v) }
  match readBytes d 77 8 with
  | none => (p, true)
  | some v =>
  let p := { p with protocolFeeOwedA := leNat v }
  match readBytes d 85 8 with
  | none => (p, true)
  | some v =>
  let p := { p with protocolFeeOwedB := leNat v }
  match readBytes d 93 32 with
  | none => (p, true)
  | some v =>
  let p := { p with tokenMintA := v }
  match readBytes d 125 32 with
  | none => (p, true)
  | some v =>
  let p := { p with tokenVaultA := v }
  match readBytes d 157 16 with
  | none => (p, true)
  | some v =>
  let p := { p with feeGrowthGlobalA := leNat v }
  match readBytes d 173 32 with
  | none => (p, true)
  | some v =>
  let p := { p with tokenMintB := v }
  match readBytes d 205 32 with
  | none => (p, true)
  | some v =>
  let p := { p with tokenVaultB := v }
  match readBytes d 237 16 with
  | none => (p, true)
  | some v =>
  let p := { p with feeGrowthGlobalB := leNat v }
  match readBytes d 253 8 with
  | none => (p, true)
  | some v =>
  let p := { p with rewardLastUpdatedTimestamp := leNat v }
  match readBytes d 261 32 with
  | none => (p, true)
  | some v =>
  let p := { p with rewardInfo0 := { p.rewardInfo0 with mint := v } }
  match readBytes d 293 32 with
  | none => (p, true)
  | some v =>
  let p := { p with rewardInfo0 := { p.rewardInfo0 with vault := v } }
  match readBytes d 325 32 with
  | none => (p, true)
  | some v =>
  let p := { p with rewardInfo0 := { p.rewardInfo0 with authority := v } }
  match readBytes d 357 16 with
  | none => (p, true)
  | some v =>
  let p := { p with rewardInfo0 := { p.rewardInfo0 with emissionsPerSecondX64 := leNat v } }
  match readBytes d 373 16 with
  | none => (p, true)
  | some v =>
  let p := { p with rewardInfo0 := { p.rewardInfo0 with growthGlobalX64 := leNat v } }
  match readBytes d 389 32 with
  | none => (p, true)
  | some v =>
  let p := { p with rewardInfo1 := { p.rewardInfo1 with mint := v } }
  match readBytes d 421 32 with
  | none => (p, true)
  | some v =>
  let p := { p with rewardInfo1 := { p.rewardInfo1 with vault := v } }
  match readBytes d 453 32 with
  | none => (p, true)
  | some v =>
  let p := { p with rewardInfo1 := { p.rewardInfo1 with authority := v } }
  match readBytes d 485 16 with
  | none => (p, true)
  | some v =>
  let p := { p with rewardInfo1 := { p.rewardInfo1 with emissionsPerSecondX64 := leNat v } }
  match readBytes d 501 16 with
  | none => (p, true)
  | some v =>
  let p := { p with rewardInfo1 := { p.rewardInfo1 with growthGlobalX64 := leNat v } }
  match readBytes d 517 32 with
  | none => (p, true)
  | some v =>
  let p := { p with rewardInfo2 := { p.rewardInfo2 with mint := v } }
  match readBytes d 549 32 with
  | none => (p, true)
  | some v =>
  let p := { p with rewardInfo2 := { p.rewardInfo2 with vault := v } }
  match readBytes d 581 32 with
  | none => (p, true)
  | some v =>
  let p := { p with rewardInfo2 := { p.rewardInfo2 with authority := v } }
  match readBytes d 613 16 with
  | none => (p, true)
  | some v =>
  let p := { p with rewardInfo2 := { p.rewardInfo2 with emissionsPerSecondX64 := leNat v } }
  match readBytes d 629 16 with
  | none => (p, true)
  | some v =>
  let p := { p with rewardInfo2 := { p.rewardInfo2 with growthGlobalX64 := leNat v } }
  (p, false)

/-- Embeds `WhirlpoolPool.Span` (src/pkg/pool/orca/whirlpoolPool.go). -/
def WhirlpoolPool.Span : ℕ :=
  8 + 32 + 1 + 2 + 2 + 2 + 2 + 16 + 16 + 4 + 8 + 8 + 32 + 32 + 16 + 32 + 32 +
    16 + 8 + 3 * 128

/-- Embeds `WhirlpoolPool.Offset` (src/pkg/pool/orca/whirlpoolPool.go lines
225-254): byte offsets of filterable fields, including the 8-byte
discriminator; unknown field names map to 0. -/
def WhirlpoolPool.Offset (field : String) : ℕ :=
  let baseOffset := 8
  if field = "TokenMintA" then
    baseOffset + 32 + 1 + 2 + 2 + 2 + 2 + 16 + 16 + 4 + 8 + 8
  else if field = "TokenMintB" then
    baseOffset + 101 + 32 + 32 + 16 - 8
  else if field = "TickSpacing" then
    baseOffset + 32 + 1
  else if field = "FeeRate" then
    baseOffset + 32 + 1 + 2 + 2
  else if field = "SqrtPrice" then
    baseOffset + 32 + 1 + 2 + 2 + 2 + 2 + 16
  else if field = "TickCurrentIndex" then
    baseOffset + 32 + 1 + 2 + 2 + 2 + 2 + 16 + 16
  else 0

/-- Go conversion `uint32(x.Int64())` for a nonnegative in-range value;
wraps modulo `2^32` like the Go cast. -/
def goUint32 (x : ℤ) : ℕ :=
  (x % 2 ^ 32).toNat

/-- Embeds the part_002 `whirlpoolSwapStepCompute` wrapper: rejects zero
liquidity with a returned error, short-circuits a zero remaining amount, and
otherwise calls the precise step computation on the absolute amount. -/
def whirlpoolSwapStepCompute
    (sqrtPriceCurrent sqrtPriceTarget liquidity amountRemaining feeRate : ℤ)
    (zeroForOne : Bool) : GoE WhirlpoolSwapStep :=
  if liquidity = 0 then .error .err
  else
    let baseAmount := |amountRemaining|
    if baseAmount = 0 then .ok ⟨sqrtPriceCurrent, 0, 0, 0⟩
    else
      whirlpoolSwapStepComputePrecise sqrtPriceCurrent sqrtPriceTarget liquidity
        baseAmount (goUint32 feeRate) zeroForOne

/-- Ticks per tick array: `tickSpacing * TICK_ARRAY_SIZE` with
`TICK_ARRAY_SIZE = 88`. -/
def getWhirlpoolTickCount (tickSpacing : ℤ) : ℤ :=
  tickSpacing * 88

/-- Embeds `getWhirlpoolTickArrayStartIndexByTick`. The source computes
`math.Floor(float64(tickIndex)/float64(ticksInArray))` in `float64`; it is
modelled as the exact floor division. The only consumer inside the quoting
path (`whirlpoolSwapCompute`) ignores the resulting value entirely. -/
def getWhirlpoolTickArrayStartIndexByTick (tickIndex tickSpacing : ℤ) : ℤ :=
  let ticksInArray := getWhirlpoolTickCount tickSpacing
  (tickIndex.fdiv ticksInArray) * ticksInArray

/-- Embeds `whirlpoolSwapCompute` (src/pkg/pool/orca/whirlpoolPool.go lines
343-422 and src/unnamed/part_002 lines 522-601): validates the amount, picks
the price limit and the 0.5% target-price step, runs one swap step and signs
the result. The `currentTick`, `lastSavedTickArrayStartIndex` and
`exTickArrayBitmap` parameters are accepted and ignored exactly as in the
source. -/
def whirlpoolSwapCompute (pool : WhirlpoolPool) (currentTick : ℤ)
    (zeroForOne : Bool) (amountSpecified fee : ℤ)
    (lastSavedTickArrayStartIndex : ℤ) (exTickArrayBitmap : Option Unit) :
    GoE ℤ :=
  if amountSpecified = 0 then .error .err
  else
    let baseInput := 0 < amountSpecified
    let sqrtPriceX64 : ℤ := pool.sqrtPrice
    let liquidity : ℤ := pool.liquidity
    let sqrtPriceLimitX64 :=
      if zeroForOne then MIN_SQRT_PRICE_X64 + 1 else MAX_SQRT_PRICE_X64 - 1
    let targetPrice :=
      if zeroForOne then
        let t := (sqrtPriceX64 * 995).tdiv 1000
        if t < sqrtPriceLimitX64 then sqrtPriceLimitX64 else t
      else
        let t := (sqrtPriceX64 * 1005).tdiv 1000
        if sqrtPriceLimitX64 < t then sqrtPriceLimitX64 else t
    do
      let step ←
        whirlpoolSwapStepCompute sqrtPriceX64 targetPrice liquidity
          amountSpecified fee zeroForOne
      let amountCalculated :=
        if baseInput then -step.amountOut else step.amountIn + step.feeAmount
      if amountCalculated = 0 then .error .err else .ok amountCalculated

/-- Embeds `ComputeWhirlpoolAmountOutFormat`: direction from the input mint,
then the core swap computation with the pool's fee rate. Mint strings are
modelled by the keys they canonically encode. -/
def ComputeWhirlpoolAmountOutFormat (pool : WhirlpoolPool)
    (inputTokenMint : List Byte) (inputAmount : ℤ) : GoE ℤ :=
  let zeroForOne := inputTokenMint = pool.tokenMintA
  let firstTickArrayStartIndex :=
    getWhirlpoolTickArrayStartIndexByTick pool.tickCurrentIndex pool.tickSpacing
  whirlpoolSwapCompute pool pool.tickCurrentIndex zeroForOne inputAmount
    (pool.feeRate : ℤ) firstTickArrayStartIndex none

/-- The all-zeros public key (`solana.PublicKey.IsZero`). -/
def zeroKey : List Byte :=
  List.replicate 32 0

/-- Error categories surfaced by `WhirlpoolPool.Quote`, tagged by the stage
that produced them. -/
inductive QErr where
  | validation : QErr
  | poolInvalid : QErr
  | mintNotFound : QErr
  | calcFailed : QErr
  | outputInvalid : QErr
  deriving DecidableEq, Repr

/-- Embeds `validateQuoteInputs` (src/unnamed/part_002 lines 322-344): the
amount must be nonzero, nonnegative and at most `10^18`, and the mint string
must parse as a base58 public key. An input mint string is modelled as
`some key` when it is the canonical base58 encoding of `key` and `none` when
`solana.PublicKeyFromBase58` rejects it; `true` means the nil error. -/
def validateQuoteInputs (inputMint : Option (List Byte)) (inputAmount : ℤ) :
    Bool :=
  if inputAmount = 0 then false
  else if inputAmount < 0 then false
  else if 10 ^ 18 < inputAmount then false
  else if inputMint = none then false
  else true

/-- Embeds `validatePoolState` (src/unnamed/part_002 lines 347-369). -/
def validatePoolState (pool : WhirlpoolPool) : Bool :=
  if pool.liquidity = 0 then false
  else if pool.sqrtPrice = 0 then false
  else if pool.tickSpacing = 0 then false
  else if pool.tokenMintA = zeroKey ∨ pool.tokenMintB = zeroKey then false
  else true

/-- Embeds `validateQuoteOutput` (src/unnamed/part_002 lines 372-386). -/
def validateQuoteOutput (outputAmount : ℤ) : Bool :=
  if outputAmount = 0 then false
  else if |outputAmount| = 0 then false
  else true

/-- Embeds `WhirlpoolPool.Quote` (src/unnamed/part_002 lines 271-319): input
validation, pool-state validation, direction dispatch on the input mint, the
core computation, output validation, and the final negation of the computed
result. The retry loop around the computation re-runs a pure function on
identical inputs, so it is modelled as a single attempt. -/
def WhirlpoolPool.Quote (pool : WhirlpoolPool) (inputMint : Option (List Byte))
    (inputAmount : ℤ) : Except QErr ℤ :=
  if ¬ validateQuoteInputs inputMint inputAmount then .error .validation
  else if ¬ validatePoolState pool then .error .poolInvalid
  else if inputMint = some pool.tokenMintA then
    match ComputeWhirlpoolAmountOutFormat pool pool.tokenMintA inputAmount with
    | .error _ => .error .calcFailed
    | .ok priceResult =>
      if ¬ validateQuoteOutput priceResult then .error .outputInvalid
      else .ok (-priceResult)
  else if inputMint = some pool.tokenMintB then
    match ComputeWhirlpoolAmountOutFormat pool pool.tokenMintB inputAmount with
    | .error _ => .error .calcFailed
    | .ok priceResult =>
      if ¬ validateQuoteOutput priceResult then .error .outputInvalid
      else .ok (-priceResult)
  else .error .mintNotFound

/-- Embeds `floorDivision` (src/pkg/pool/orca/whirlpoolTickArray.go lines
338-343): Go truncated division corrected to floor when the signs differ and
the remainder is nonzero. -/
def floorDivision (dividend divisor : ℤ) : ℤ :=
  if (decide (dividend < 0) ≠ decide (divisor < 0)) ∧ dividend.tmod divisor ≠ 0
  then dividend.tdiv divisor - 1
  else dividend.tdiv divisor

/-- Embeds `DeriveWhirlpoolTickArrayPDA`. A program-derived address is the
SHA-256-based `FindProgramAddress` of the seeds `["tick_array", pool bytes,
decimal string of startTickIndex]`; the hash is modelled by the seed data
itself (pool key and start index), which determines it. -/
def DeriveWhirlpoolTickArrayPDA (whirlpoolPubkey : List Byte)
    (startTickIndex : ℤ) : List Byte × ℤ :=
  (whirlpoolPubkey, startTickIndex)

/-- Embeds `DeriveMultipleWhirlpoolTickArrayPDAs`
(src/pkg/pool/orca/whirlpoolTickArray.go lines 290-335): base window via floor
division, direction-dependent offsets, and the three derived windows. The
source casts its `int64` inputs to `int32`; tick indexes and spacings are
modelled as unbounded integers (callers pass the pool's `int32` tick and
`uint16` spacing, for which the cast is the identity). -/
def DeriveMultipleWhirlpoolTickArrayPDAs (whirlpoolPubkey : List Byte)
    (currentTick tickSpacing : ℤ) (aToB : Bool) :
    (List Byte × ℤ) × (List Byte × ℤ) × (List Byte × ℤ) :=
  let ticksInArray := 88 * tickSpacing
  let startTickIndexBase := floorDivision currentTick ticksInArray * ticksInArray
  let offsets : ℤ × ℤ × ℤ :=
    if aToB then (0, -1, -2)
    else
      let shifted := startTickIndexBase + ticksInArray ≤ currentTick + tickSpacing
      if shifted then (1, 2, 3) else (0, 1, 2)
  (DeriveWhirlpoolTickArrayPDA whirlpoolPubkey
      (startTickIndexBase + offsets.1 * ticksInArray),
    DeriveWhirlpoolTickArrayPDA whirlpoolPubkey
      (startTickIndexBase + offsets.2.1 * ticksInArray),
    DeriveWhirlpoolTickArrayPDA whirlpoolPubkey
      (startTickIndexBase + offsets.2.2 * ticksInArray))

/-- Little-endian 8-byte encoding of a `uint64`, as produced by the Borsh
encoder for `uint64` values. -/
def u64le (n : ℕ) : List Byte :=
  (List.range 8).map fun i => ⟨n / 256 ^ i % 256, Nat.mod_lt _ (by norm_num)⟩

/-- One-byte Borsh encoding of a boolean. -/
def boolByte (b : Bool) : Byte :=
  if b then 1 else 0

/-- The SwapV2 instruction discriminator from the adapter's constants file. -/
def SwapV2Discriminator : List Byte :=
  [43, 4, 237, 11, 26, 201, 30, 98]

/-- The Whirlpool program id, modelled by the bytes of its base58 identifier
(`whirLbMiicVdio4qvUfM5KAg6Ct8VwpYzGff3uctyCc`); none of the verified
properties inspect its value. -/
def ORCA_WHIRLPOOL_PROGRAM_ID : List Byte :=
  (String.toList "whirLbMiicVdio4qvUfM5KAg6Ct8VwpYzGff3uctyCc").map
    fun c => ⟨c.toNat % 256, Nat.mod_lt _ (by norm_num)⟩

/-- Mirror of `solana.AccountMeta` as built by
`solana.NewAccountMeta(pubkey, writable, signer)`. -/
structure AccountMeta where
  pubkey : List Byte
  isWritable : Bool
  isSigner : Bool
  deriving DecidableEq, Repr

/-- Mirror of the `solana.Instruction` value built by `solana.NewInstruction`. -/
structure Instruction where
  programId : List Byte
  accounts : List AccountMeta
  data : List Byte
  deriving DecidableEq, Repr

/-- Embeds `createWhirlpoolSwapV2Instruction` (src/unnamed/part_002 lines
903-1009): Borsh-serializes the discriminator, amount, threshold, the two
64-bit halves of the 128-bit price limit, the two flags and the `None`
remaining-accounts option, and assembles the fixed 15-account list. -/
def createWhirlpoolSwapV2Instruction
    (amount otherAmountThreshold : ℕ) (sqrtPriceLimit : ℕ)
    (amountSpecifiedIsInput aToB : Bool) (remainingAccountsInfo : Option Unit)
    (tokenProgramA tokenProgramB memoProgram tokenAuthority whirlpool
      tokenMintA tokenMintB tokenOwnerAccountA tokenVaultA tokenOwnerAccountB
      tokenVaultB tickArray0 tickArray1 tickArray2 oracle : List Byte) :
    Instruction :=
  let data := SwapV2Discriminator ++ u64le amount ++ u64le otherAmountThreshold
      ++ u64le (sqrtPriceLimit % 2 ^ 64) ++ u64le (sqrtPriceLimit / 2 ^ 64)
      ++ [boolByte amountSpecifiedIsInput] ++ [boolByte aToB] ++ [0]
  { programId := ORCA_WHIRLPOOL_PROGRAM_ID
    accounts := [⟨tokenProgramA, false, false⟩, ⟨tokenProgramB, false, false⟩,
      ⟨memoProgram, false, false⟩, ⟨tokenAuthority, false, true⟩,
      ⟨whirlpool, true, false⟩, ⟨tokenMintA, false, false⟩,
      ⟨tokenMintB, false, false⟩, ⟨tokenOwnerAccountA, true, false⟩,
      ⟨tokenVaultA, true, false⟩, ⟨tokenOwnerAccountB, true, false⟩,
      ⟨tokenVaultB, true, false⟩, ⟨tickArray0, true, false⟩,
      ⟨tickArray1, true, false⟩, ⟨tickArray2, true, false⟩,
      ⟨oracle, true, false⟩]
    data := data }

/-- Concrete mint key used by the quote evaluation below. -/
def quoteMintA : List Byte :=
  (1 : Byte) :: List.replicate 31 0

/-- Second concrete mint key used by the quote evaluation below. -/
def quoteMintB : List Byte :=
  (2 : Byte) :: List.replicate 31 0

/-- A concrete, fully valid pool state (liquidity `10^12`, sqrt price `2^64`
(i.e. price 1.0), tick spacing 64, fee rate 3000 ppm). -/
def quotePool : WhirlpoolPool :=
  { WhirlpoolPool.zero with
      tokenMintA := quoteMintA
      tokenMintB := quoteMintB
      liquidity := 10 ^ 12
      sqrtPrice := 2 ^ 64
      tickSpacing := 64
      feeRate := 3000 }

/-!  Helper lemmas about the division primitives. -/

/-- Truncated division agrees with floor division on nonnegative numerators. -/
theorem tdiv_eq_fdiv_of_nonneg (N d : ℤ) (hN : 0 ≤ N) (hd : 0 < d) :
    N.tdiv d = N.fdiv d :=
  (Int.tdiv_eq_ediv hN hd.le).trans (Int.fdiv_eq_ediv N hd.le).symm

/-- The `(N + (d-1)).tdiv d` pattern of `whirlpoolMulDivCeil` is the ceiling
`⌈N/d⌉ = -((-N).fdiv d)` for nonnegative `N` and positive `d`. -/
theorem tdiv_ceil_of_nonneg (N d : ℤ) (hN : 0 ≤ N) (hd : 0 < d) :
    (N + (d - 1)).tdiv d = -((-N).fdiv d) := by
  rw [Int.tdiv_eq_ediv (by omega) hd.le, Int.fdiv_eq_ediv (-N) hd.le]
  by_cases hr : N % d = 0
  · obtain ⟨q, hq⟩ := Int.dvd_of_emod_eq_zero hr
    subst hq
    rw [show d * q + (d - 1) = (d - 1) + d * q by ring,
      Int.add_mul_ediv_left (d - 1) q hd.ne',
      Int.ediv_eq_zero_of_lt (by omega) (by omega),
      show -(d * q) = -q * d by ring, Int.mul_ediv_cancel (-q) hd.ne']
    ring
  · have h1 := Int.ediv_add_emod N d
    have h2 : 0 ≤ N % d := Int.emod_nonneg N hd.ne'
    have h3 : N % d < d := Int.emod_lt_of_pos N hd
    have e1 : (N + (d - 1)) / d = N / d + 1 := by
      have h4 := (Int.ediv_emod_unique (b := d) (a := N + (d - 1))
        (q := N / d + 1) (r := N % d - 1) hd).mpr
        ⟨by linear_combination h1, by omega, by omega⟩
      exact h4.1
    have e2 : (-N) / d = -(N / d) - 1 := by
      have h4 := (Int.ediv_emod_unique (b := d) (a := -N)
        (q := -(N / d) - 1) (r := d - N % d) hd).mpr
        ⟨by linear_combination -h1, by omega, by omega⟩
      exact h4.1
    rw [e1, e2]
    ring

/-- The Go sort of the two price bounds is symmetric in its arguments. -/
theorem sortPair_comm (a b : ℤ) : sortPair a b = sortPair b a := by
  unfold sortPair
  rcases lt_trichotomy a b with h | h | h
  · rw [if_neg (by omega), if_pos h]
  · subst h; rfl
  · rw [if_pos h, if_neg (by omega)]

/-- C1: the spec demands that `Decode` fail with `BufferTooShort` on every
buffer shorter than 653 bytes without assigning any field. The code performs
no length check at all: on a 100-byte buffer of `0x01` bytes it crashes with
an out-of-range slice (the `true` panic flag), after having already assigned
the fields that precede the failing read — `tickSpacing` becomes `0x0101 =
257` and `protocolFeeOwedA` becomes `0x0101010101010101`, both different
from their zero-value initial contents. -/
theorem C1_decode_short_buffer_panics_partially_assigned :
    (WhirlpoolPool.Decode WhirlpoolPool.zero (List.replicate 100 (1 : Byte))).2
        = true ∧
    (WhirlpoolPool.Decode WhirlpoolPool.zero
        (List.replicate 100 (1 : Byte))).1.tickSpacing = 257 ∧
    (WhirlpoolPool.Decode WhirlpoolPool.zero
        (List.replicate 100 (1 : Byte))).1.protocolFeeOwedA
        = 72340172838076673 ∧
    WhirlpoolPool.zero.tickSpacing = 0 ∧
    WhirlpoolPool.zero.protocolFeeOwedA = 0 :=
  ⟨rfl, rfl, rfl, rfl, rfl⟩

/-- C3: the claim demands the exact §4.1 amount with no percentage haircut and
an error instead of a substituted value when the exact amount is zero. On a
successful exact-input step that moves the price from `2·2^64` to `2^64` with
liquidity 1000 and zero fee, the exact token-B output for that movement is
1000, but the step returns 900 — the 90% safety margin, together with the
minimum-output substitution branch, contradicts the claim. -/
theorem C3_swap_step_applies_haircut :
    whirlpoolSwapStepComputePrecise (2 * 2 ^ 64) (2 ^ 64) 1000 (10 ^ 6) 0 true
        = .ok ⟨2 ^ 64, 500, 900, 0⟩ ∧
    whirlpoolGetTokenAmountBFromLiquidity (2 ^ 64) (2 * 2 ^ 64) 1000 false
        = .ok 1000 ∧
    (900 : ℤ) ≠ 1000 :=
  ⟨rfl, rfl, by decide⟩

/-- C4: the claim (and the code's own comments) say a successful exact-input
`Quote` is negative, the sign denoting the received amount. The swap
computation already negates the output (`amountOut.Neg()`), and `Quote`
negates that result again (`priceResult.Neg()`), so a successful quote on a
fully valid pool is strictly positive. -/
theorem C4_quote_returns_positive_amount :
    WhirlpoolPool.Quote quotePool (some quoteMintA) (10 ^ 6) = .ok 897299 ∧
    (0 : ℤ) < 897299 :=
  ⟨rfl, by decide⟩

/-- C5 counterexample: `mulDivFloor` uses Go truncated division, which is not
the floor for a negative product: `mulDivFloor(-7, 3, 2)` returns `-10`, while
`⌊-21/2⌋ = -11`. -/
theorem C5_mulDiv_counterexample :
    whirlpoolMulDivFloor (-7) 3 2 = .ok (-10) ∧
    Int.fdiv ((-7) * 3) 2 = -11 ∧
    ((-10 : ℤ) ≠ -11) :=
  ⟨rfl, by decide, by decide⟩

/-- C5 amended: `mulDivFloor(a,b,0)` panics (division by zero) for all `a, b`;
`mulDivCeil(a,b,0)` returns the nil zero-value `cosmath.Int{}` and does not
fail; for nonnegative `a, b` and positive `denom`, `mulDivFloor` is
`⌊a·b/denom⌋` and `mulDivCeil` is `⌈a·b/denom⌉` (so `mulDivFloor(7,3,2)=10`
and `mulDivCeil(7,3,2)=11`); with a negative product the functions follow Go
truncated division instead of floor/ceiling. -/
theorem C5_mulDiv_amended :
    (∀ a b : ℤ, whirlpoolMulDivFloor a b 0 = .error .panic) ∧
    (∀ a b : ℤ, whirlpoolMulDivCeil a b 0 = none) ∧
    (∀ a b d : ℤ, 0 ≤ a → 0 ≤ b → 0 < d →
      whirlpoolMulDivFloor a b d = .ok ((a * b).fdiv d) ∧
      whirlpoolMulDivCeil a b d = some (-((-(a * b)).fdiv d))) ∧
    whirlpoolMulDivFloor 7 3 2 = .ok 10 ∧
    whirlpoolMulDivCeil 7 3 2 = some 11 := by
  refine ⟨fun a b => rfl, fun a b => rfl, fun a b d ha hb hd => ⟨?_, ?_⟩, rfl, rfl⟩
  · rw [whirlpoolMulDivFloor, if_neg hd.ne',
      tdiv_eq_fdiv_of_nonneg (a * b) d (mul_nonneg ha hb) hd]
  · rw [whirlpoolMulDivCeil, if_neg hd.ne',
      tdiv_ceil_of_nonneg (a * b) d (mul_nonneg ha hb) hd]

/-- C5 amended witness: the floor/ceiling equalities instantiated at
`a = 5, b = 3, denom = 2`. -/
theorem C5_mulDiv_amended_witness :
    whirlpoolMulDivFloor 5 3 2 = .ok (((5 : ℤ) * 3).fdiv 2) ∧
    whirlpoolMulDivCeil 5 3 2 = some (-((-((5 : ℤ) * 3)).fdiv 2)) :=
  C5_mulDiv_amended.2.2.1 5 3 2 (by decide) (by decide) (by decide)

/-- C7: every instruction built by `createWhirlpoolSwapV2Instruction`
references exactly 15 accounts in the fixed order (token program A, token
program B, memo program, signer, pool, mint A, mint B, user account A,
vault A, user account B, vault B, tick arrays 0-2, oracle), and its data is
always the 43-byte payload: 8-byte discriminator, 8-byte amount (LE), 8-byte
minimum-out threshold (LE), the 16-byte price limit as two 8-byte LE halves,
the exact-input flag, the direction flag and the no-extension marker. -/
theorem C7_instruction_shape
    (amount otherAmountThreshold sqrtPriceLimit : ℕ)
    (amountSpecifiedIsInput aToB : Bool) (remainingAccountsInfo : Option Unit)
    (tpA tpB memo auth pool mA mB ownA vA ownB vB ta0 ta1 ta2 orcl : List Byte) :
    (createWhirlpoolSwapV2Instruction amount otherAmountThreshold sqrtPriceLimit
        amountSpecifiedIsInput aToB remainingAccountsInfo tpA tpB memo auth pool
        mA mB ownA vA ownB vB ta0 ta1 ta2 orcl).accounts.map AccountMeta.pubkey
      = [tpA, tpB, memo, auth, pool, mA, mB, ownA, vA, ownB, vB, ta0, ta1,
          ta2, orcl] ∧
    (createWhirlpoolSwapV2Instruction amount otherAmountThreshold sqrtPriceLimit
        amountSpecifiedIsInput aToB remainingAccountsInfo tpA tpB memo auth pool
        mA mB ownA vA ownB vB ta0 ta1 ta2 orcl).accounts.length = 15 ∧
    (createWhirlpoolSwapV2Instruction amount otherAmountThreshold sqrtPriceLimit
        amountSpecifiedIsInput aToB remainingAccountsInfo tpA tpB memo auth pool
        mA mB ownA vA ownB vB ta0 ta1 ta2 orcl).data
      = SwapV2Discriminator ++ u64le amount ++ u64le otherAmountThreshold
          ++ u64le (sqrtPriceLimit % 2 ^ 64) ++ u64le (sqrtPriceLimit / 2 ^ 64)
          ++ [boolByte amountSpecifiedIsInput] ++ [boolByte aToB] ++ [0] ∧
    (createWhirlpoolSwapV2Instruction amount otherAmountThreshold sqrtPriceLimit
        amountSpecifiedIsInput aToB remainingAccountsInfo tpA tpB memo auth pool
        mA mB ownA vA ownB vB ta0 ta1 ta2 orcl).data.length = 43 := by
  refine ⟨rfl, rfl, rfl, ?_⟩
  simp [createWhirlpoolSwapV2Instruction, SwapV2Discriminator, u64le]

/-- C9: `tokenAmountBFromLiquidity(2^64, 2·2^64, 100, false) = 100` and
`tokenAmountAFromLiquidity(2^64, 2·2^64, 100, false) = 50`, and both functions
sort the two price bounds first, so swapping the bound arguments never changes
the result. -/
theorem C9_token_amounts_and_symmetry :
    whirlpoolGetTokenAmountBFromLiquidity (2 ^ 64) (2 * 2 ^ 64) 100 false
        = .ok 100 ∧
    whirlpoolGetTokenAmountAFromLiquidity (2 ^ 64) (2 * 2 ^ 64) 100 false
        = .ok 50 ∧
    (∀ a b L r, whirlpoolGetTokenAmountAFromLiquidity a b L r
        = whirlpoolGetTokenAmountAFromLiquidity b a L r) ∧
    (∀ a b L r, whirlpoolGetTokenAmountBFromLiquidity a b L r
        = whirlpoolGetTokenAmountBFromLiquidity b a L r) := by
  refine ⟨rfl, rfl, fun a b L r => ?_, fun a b L r => ?_⟩
  · unfold whirlpoolGetTokenAmountAFromLiquidity
    rw [sortPair_comm]
  · unfold whirlpoolGetTokenAmountBFromLiquidity
    rw [sortPair_comm]

/-- `floorDivision` computes exact floor division whenever the divisor is
positive. -/
theorem floorDivision_eq_fdiv (t w : ℤ) (hw : 0 < w) :
    floorDivision t w = t.fdiv w := by
  unfold floorDivision
  by_cases ht : 0 ≤ t
  · rw [if_neg]
    · exact tdiv_eq_fdiv_of_nonneg t w ht hw
    · rintro ⟨h1, h2⟩
      exact h1 (by rw [decide_eq_false (by omega : ¬ t < 0),
        decide_eq_false (by omega : ¬ w < 0)])
  · push_neg at ht
    by_cases hd : w ∣ t
    · rw [if_neg]
      · exact (Int.tdiv_eq_ediv_of_dvd hd).trans (Int.fdiv_eq_ediv t hw.le).symm
      · rintro ⟨h1, h2⟩
        exact h2 (Int.tmod_eq_zero_of_dvd hd)
    · rw [if_pos]
      · have hmod := Int.ediv_add_emod t w
        have h2 : 0 ≤ t % w := Int.emod_nonneg t hw.ne'
        have h3 : t % w < w := Int.emod_lt_of_pos t hw
        have hrne : t % w ≠ 0 := fun h0 => hd (Int.dvd_of_emod_eq_zero h0)
        have htd : t.tdiv w = -((-t).tdiv w) := by rw [Int.neg_tdiv]; ring
        rw [htd, Int.tdiv_eq_ediv (by omega) hw.le, Int.fdiv_eq_ediv t hw.le]
        have e2 : (-t) / w = -(t / w) - 1 := by
          have h4 := (Int.ediv_emod_unique (b := w) (a := -t)
            (q := -(t / w) - 1) (r := w - t % w) hw).mpr
            ⟨by linear_combination -hmod, by omega, by omega⟩
          exact h4.1
        rw [e2]; ring
      · exact ⟨by rw [decide_eq_true (by omega : t < 0),
            decide_eq_false (by omega : ¬ w < 0)]; simp,
          fun h0 => hd (Int.dvd_of_tmod_eq_zero h0)⟩

/-- C6: for every pool address, current tick, positive tick spacing and
direction, the three derived tick-array windows start at
`base + k·(tickSpacing·88)` with `base = ⌊currentTick/(tickSpacing·88)⌋ ·
(tickSpacing·88)`, where `k ∈ {0,-1,-2}` when trading A into B,
`k ∈ {1,2,3}` when trading B into A and `currentTick + tickSpacing` has
crossed into the next window (`base + tickSpacing·88 ≤ currentTick +
tickSpacing`), and `k ∈ {0,1,2}` otherwise. -/
theorem C6_tick_array_triple (pool : List Byte) (currentTick tickSpacing : ℤ)
    (aToB : Bool) (h : 0 < tickSpacing) :
    DeriveMultipleWhirlpoolTickArrayPDAs pool currentTick tickSpacing aToB =
      (let w := tickSpacing * 88
       let base := currentTick.fdiv w * w
       if aToB then
         ((pool, base + 0 * w), (pool, base + (-1) * w), (pool, base + (-2) * w))
       else if base + w ≤ currentTick + tickSpacing then
         ((pool, base + 1 * w), (pool, base + 2 * w), (pool, base + 3 * w))
       else
         ((pool, base + 0 * w), (pool, base + 1 * w), (pool, base + 2 * w))) := by
  have hw : (0 : ℤ) < 88 * tickSpacing := by omega
  have hc : (88 : ℤ) * tickSpacing = tickSpacing * 88 := by ring
  simp only [DeriveMultipleWhirlpoolTickArrayPDAs, DeriveWhirlpoolTickArrayPDA,
    floorDivision_eq_fdiv _ _ hw]
  simp only [hc]
  cases aToB <;> simp only [Bool.false_eq_true, if_true, if_false, reduceIte]
  split <;> rfl

/-- C6 witness: tick 5620 with spacing 64 trading B into A has
`5620 + 64 = 5684 ≥ 5632`, so the shifted windows 5632, 11264, 16896 are
selected. -/
theorem C6_tick_array_triple_witness :
    (0 : ℤ) < 64 ∧
    DeriveMultipleWhirlpoolTickArrayPDAs [] 5620 64 false =
      (([], 5632), ([], 11264), ([], 16896)) :=
  ⟨by decide, by rw [C6_tick_array_triple [] 5620 64 false (by decide)]; rfl⟩

set_option maxRecDepth 8000 in
/-- C2: on every full 653-byte buffer `Decode` succeeds, and for each of the
six field names handled by `Offset` the byte offset it returns is exactly
where `Decode` reads that field (internal parse offset plus the 8-byte
discriminator): the raw bytes at `Offset(field)` reproduce the decoded struct
field byte-for-byte (for the integer fields, via their little-endian
interpretation). -/
theorem C2_offsets_match_decode (data : List Byte) (h : data.length = 653) :
    (WhirlpoolPool.Decode WhirlpoolPool.zero data).2 = false ∧
    (WhirlpoolPool.Decode WhirlpoolPool.zero data).1.tokenMintA
      = (data.drop (WhirlpoolPool.Offset "TokenMintA")).take 32 ∧
    (WhirlpoolPool.Decode WhirlpoolPool.zero data).1.tokenMintB
      = (data.drop (WhirlpoolPool.Offset "TokenMintB")).take 32 ∧
    (WhirlpoolPool.Decode WhirlpoolPool.zero data).1.tickSpacing
      = leNat ((data.drop (WhirlpoolPool.Offset "TickSpacing")).take 2) ∧
    (WhirlpoolPool.Decode WhirlpoolPool.zero data).1.feeRate
      = leNat ((data.drop (WhirlpoolPool.Offset "FeeRate")).take 2) ∧
    (WhirlpoolPool.Decode WhirlpoolPool.zero data).1.sqrtPrice
      = leNat ((data.drop (WhirlpoolPool.Offset "SqrtPrice")).take 16) ∧
    (WhirlpoolPool.Decode WhirlpoolPool.zero data).1.tickCurrentIndex
      = toInt32 (leNat ((data.drop (WhirlpoolPool.Offset "TickCurrentIndex")).take 4)) := by
  have h8 : 8 < data.length := by omega
  have hlen : (data.drop 8).length = 645 := by simp [h]
  have oA : WhirlpoolPool.Offset "TokenMintA" = 101 := by rfl
  have oB : WhirlpoolPool.Offset "TokenMintB" = 181 := by rfl
  have oT : WhirlpoolPool.Offset "TickSpacing" = 41 := by rfl
  have oF : WhirlpoolPool.Offset "FeeRate" = 45 := by rfl
  have oS : WhirlpoolPool.Offset "SqrtPrice" = 65 := by rfl
  have oI : WhirlpoolPool.Offset "TickCurrentIndex" = 81 := by rfl
  simp only [oA, oB, oT, oF, oS, oI, WhirlpoolPool.Decode, readBytes, hlen,
    if_pos h8]
  norm_num [List.drop_drop]

set_option maxRecDepth 8000 in
/-- C2 witness: the offset/decode agreement evaluated on the all-zeros
653-byte buffer. -/
theorem C2_offsets_match_decode_witness :
    (List.replicate 653 (0 : Byte)).length = 653 ∧
    (WhirlpoolPool.Decode WhirlpoolPool.zero (List.replicate 653 (0 : Byte))).2
      = false :=
  ⟨by simp, (C2_offsets_match_decode (List.replicate 653 0) (by simp)).1⟩

/-- C10: `Quote` rejects every amount that is zero, negative or above `10^18`,
and every input mint string that does not parse as a base58 key, with a
validation error raised before any swap computation; consequently a successful
`Quote` always has a positive in-range amount and a parsed mint, so the public
entry point never runs an exact-output (negative-amount) computation. -/
theorem C10_quote_input_validation :
    (∀ (pool : WhirlpoolPool) (inputMint : Option (List Byte)) (amt : ℤ),
      amt ≤ 0 ∨ 10 ^ 18 < amt ∨ inputMint = none →
      WhirlpoolPool.Quote pool inputMint amt = .error .validation) ∧
    (∀ (pool : WhirlpoolPool) (inputMint : Option (List Byte)) (amt q : ℤ),
      WhirlpoolPool.Quote pool inputMint amt = .ok q →
      0 < amt ∧ amt ≤ 10 ^ 18 ∧ inputMint ≠ none) := by
  have hval : ∀ (m : Option (List Byte)) (amt : ℤ),
      amt ≤ 0 ∨ 10 ^ 18 < amt ∨ m = none →
      validateQuoteInputs m amt = false := by
    intro m amt hbad
    unfold validateQuoteInputs
    split_ifs with h1 h2 h3 h4
    · rfl
    · rfl
    · rfl
    · rfl
    · rcases hbad with hb | hb | hb
      · omega
      · omega
      · exact absurd hb h4
  have herr : ∀ (pool : WhirlpoolPool) (m : Option (List Byte)) (amt : ℤ),
      amt ≤ 0 ∨ 10 ^ 18 < amt ∨ m = none →
      WhirlpoolPool.Quote pool m amt = .error .validation := by
    intro pool m amt hbad
    unfold WhirlpoolPool.Quote
    rw [hval m amt hbad]
    simp
  refine ⟨herr, fun pool m amt q hok => ?_⟩
  have key : ¬ (amt ≤ 0 ∨ 10 ^ 18 < amt ∨ m = none) := by
    intro hbad
    rw [herr pool m amt hbad] at hok
    exact Except.noConfusion hok
  push_neg at key
  exact ⟨by omega, by omega, key.2.2⟩

/-- C10 witness: a zero amount is rejected with the validation error. -/
theorem C10_quote_input_validation_witness :
    WhirlpoolPool.Quote quotePool (some quoteMintA) 0 = .error .validation :=
  C10_quote_input_validation.1 quotePool (some quoteMintA) 0 (Or.inl (by decide))

/-- Shape of a successful exact-input swap step whose realized next price is
the target: the returned amount-in is the step-1 maximal amount, the fee is
the ceiling-rounded `amountIn·r/(10^6 - r)`, and the returned amount-out is
the 90%-adjusted exact output for the movement to the target, which does not
depend on the fee rate. -/
theorem finish_target_shape
    (cur target L amt r : ℤ) (z : Bool) (next amtIn0 amtOut0 : ℤ)
    (res : WhirlpoolSwapStep) (hr : r < 1000000)
    (hok : whirlpoolSwapStepFinish cur target L amt r z true next amtIn0 amtOut0
      = .ok res)
    (hreach : next = target) :
    res.amountIn = amtIn0 ∧
    res.feeAmount
      = (amtIn0 * r + (1000000 - r - 1)).tdiv (1000000 - r) ∧
    (∃ o, (if z then whirlpoolGetTokenAmountBFromLiquidity target cur L false
           else whirlpoolGetTokenAmountAFromLiquidity cur target L false) = .ok o ∧
      res.amountOut
        = (if (o * 90).tdiv 100 = 0 ∧ 0 < o then 1 else (o * 90).tdiv 100)) := by
  subst hreach
  have hD : (1000000 : ℤ) - r ≠ 0 := by omega
  unfold whirlpoolSwapStepFinish at hok
  simp only [and_true, and_false, if_pos rfl, eq_self_iff_true, not_true,
    Bool.true_eq_false, false_and, and_self, if_false, if_true] at hok
  rw [pure_bind] at hok
  cases z
  · simp only [Bool.false_eq_true, if_false, reduceIte] at hok ⊢
    cases hB : whirlpoolGetTokenAmountAFromLiquidity cur next L false with
    | error e =>
      rw [hB] at hok
      exact Except.noConfusion hok
    | ok o =>
      rw [hB] at hok
      simp only [whirlpoolMulDivCeil, FEE_RATE_DENOMINATOR, if_neg hD,
        cosBigInt, Except.bind, bind, pure, Except.pure] at hok
      rw [Except.ok.injEq] at hok
      subst hok
      exact ⟨rfl, rfl, o, rfl, rfl⟩
  · simp only [if_true, reduceIte] at hok ⊢
    cases hB : whirlpoolGetTokenAmountBFromLiquidity next cur L false with
    | error e =>
      rw [hB] at hok
      exact Except.noConfusion hok
    | ok o =>
      rw [hB] at hok
      simp only [whirlpoolMulDivCeil, FEE_RATE_DENOMINATOR, if_neg hD,
        cosBigInt, Except.bind, bind, pure, Except.pure] at hok
      rw [Except.ok.injEq] at hok
      subst hok
      exact ⟨rfl, rfl, o, rfl, rfl⟩

/-- A successful exact-input run of the precise swap step factors through its
shared step-2/3 tail with `baseInput = true`. -/
theorem step_ok_to_finish
    (cur target L amt : ℤ) (r : ℕ) (z : Bool) (res : WhirlpoolSwapStep)
    (hamt : 0 ≤ amt)
    (hok : whirlpoolSwapStepComputePrecise cur target L amt r z = .ok res) :
    ∃ next amtIn0,
      whirlpoolSwapStepFinish cur target L amt (r : ℤ) z true next amtIn0 0
        = .ok res := by
  unfold whirlpoolSwapStepComputePrecise at hok
  rw [if_pos hamt] at hok
  cases h1 : whirlpoolMulDivFloor amt (FEE_RATE_DENOMINATOR - (r : ℤ))
      FEE_RATE_DENOMINATOR with
  | error e =>
    rw [h1] at hok
    exact Except.noConfusion hok
  | ok sub =>
    rw [h1] at hok
    simp only [Except.bind, bind] at hok
    cases z
    all_goals simp only [Bool.false_eq_true, if_false, if_true, reduceIte] at hok
    · cases h2 : whirlpoolGetTokenAmountBFromLiquidity cur target L true with
      | error e =>
        rw [h2] at hok
        exact Except.noConfusion hok
      | ok maxIn =>
        rw [h2] at hok
        dsimp only at hok
        by_cases h3 : maxIn ≤ sub
        · rw [if_pos h3] at hok
          dsimp only [pure, Except.pure] at hok
          exact ⟨target, maxIn, hok⟩
        · rw [if_neg h3] at hok
          cases h4 : whirlpoolGetNextSqrtPriceX64FromInput cur L sub false with
          | error e =>
            rw [h4] at hok
            exact Except.noConfusion hok
          | ok next =>
            rw [h4] at hok
            dsimp only at hok
            exact ⟨next, maxIn, hok⟩
    · cases h2 : whirlpoolGetTokenAmountAFromLiquidity target cur L true with
      | error e =>
        rw [h2] at hok
        exact Except.noConfusion hok
      | ok maxIn =>
        rw [h2] at hok
        dsimp only at hok
        by_cases h3 : maxIn ≤ sub
        · rw [if_pos h3] at hok
          dsimp only [pure, Except.pure] at hok
          exact ⟨target, maxIn, hok⟩
        · rw [if_neg h3] at hok
          cases h4 : whirlpoolGetNextSqrtPriceX64FromInput cur L sub true with
          | error e =>
            rw [h4] at hok
            exact Except.noConfusion hok
          | ok next =>
            rw [h4] at hok
            dsimp only at hok
            exact ⟨next, maxIn, hok⟩

/-- Whenever the step-2/3 tail returns successfully, the result's next sqrt
price field is the `next` value it was given. -/
theorem finish_ok_next
    (cur target L amt r : ℤ) (z b : Bool) (next a0 o0 : ℤ)
    (res : WhirlpoolSwapStep)
    (hok : whirlpoolSwapStepFinish cur target L amt r z b next a0 o0
      = .ok res) :
    res.sqrtPriceX64Next = next := by
  unfold whirlpoolSwapStepFinish at hok
  simp only [Except.bind, bind, pure, Except.pure] at hok
  repeat' split at hok
  all_goals
    first
      | exact Except.noConfusion hok
      | (rw [Except.ok.injEq] at hok; subst hok; rfl)

/-- C8 counterexample: a successful exact-input step (price `2^64` to
`2^64 + 2^32`, liquidity `2^32`, amount `10^6`, fee rate 1 ppm) reaches the
target with `amountIn = 1` and computed fee 1, but the claimed bound
`fee ≤ r/10^6 · (amountIn + fee)` demands `10^6 · 1 ≤ 1 · (1 + 1)`, which is
false: ceiling rounding lets the fee exceed the proportional bound. -/
theorem C8_fee_bound_counterexample :
    whirlpoolSwapStepComputePrecise (2 ^ 64) (2 ^ 64 + 2 ^ 32) (2 ^ 32)
        (10 ^ 6) 1 false
      = .ok ⟨2 ^ 64 + 2 ^ 32, 1, 0, 1⟩ ∧
    ¬ ((1000000 : ℤ) * 1 ≤ 1 * (1 + 1)) :=
  ⟨rfl, by decide⟩

/-- C8 amended: for every successful exact-input swap-step computation with
fee rate `r < 10^6` and nonnegative amount-in that reaches the target price,
the computed fee exceeds `r/10^6` times the gross input (amount-in plus fee)
by less than one unit — `10^6·fee ≤ r·(amountIn + fee) + 10^6` — and the
amount-out for the realized price movement does not depend on the fee rate:
it equals (rather than being strictly less than) the amount-out of the
zero-fee computation realizing the same movement. -/
theorem C8_fee_bound_amended
    (cur target L amt : ℤ) (r : ℕ) (z : Bool) (res : WhirlpoolSwapStep)
    (hamt : 0 ≤ amt) (hr : (r : ℤ) < 1000000) (hIn : 0 ≤ res.amountIn)
    (hok : whirlpoolSwapStepComputePrecise cur target L amt r z = .ok res)
    (hreach : res.sqrtPriceX64Next = target) :
    1000000 * res.feeAmount
        ≤ (r : ℤ) * (res.amountIn + res.feeAmount) + 1000000 ∧
    (∀ res0 : WhirlpoolSwapStep,
      whirlpoolSwapStepComputePrecise cur target L amt 0 z = .ok res0 →
      res0.sqrtPriceX64Next = target →
      res.amountOut = res0.amountOut) := by
  obtain ⟨next, amtIn0, hfin⟩ := step_ok_to_finish cur target L amt r z res hamt hok
  have hnext : res.sqrtPriceX64Next = next :=
    finish_ok_next cur target L amt (r : ℤ) z true next amtIn0 0 res hfin
  obtain ⟨hIn0, hfee, o, hBo, hout⟩ :=
    finish_target_shape cur target L amt (r : ℤ) z next amtIn0 0 res hr hfin
      (hnext.symm.trans hreach)
  constructor
  · rw [← hIn0] at hfee
    have hD : (0 : ℤ) < 1000000 - r := by omega
    have hN : (0 : ℤ) ≤ res.amountIn * r :=
      mul_nonneg hIn (Int.natCast_nonneg r)
    have hnum : (0 : ℤ) ≤ res.amountIn * r + (1000000 - r - 1) := by omega
    have e1 : res.feeAmount
        = (res.amountIn * r + (1000000 - r - 1)) / (1000000 - r) := by
      rw [hfee, Int.tdiv_eq_ediv hnum hD.le]
    have e2 := Int.ediv_add_emod (res.amountIn * r + (1000000 - r - 1))
      (1000000 - r)
    have e3 := Int.emod_nonneg (res.amountIn * r + (1000000 - r - 1)) hD.ne'
    have hfeeLB : (1000000 - r) * res.feeAmount
        ≤ res.amountIn * r + (1000000 - r - 1) := by
      rw [e1]
      linarith [e2, e3]
    have hfee0 : 0 ≤ res.feeAmount := by
      rw [e1]
      exact Int.ediv_nonneg hnum hD.le
    nlinarith [hfeeLB, hfee0, mul_nonneg (Int.natCast_nonneg r) hfee0]
  · intro res0 h0 hreach0
    obtain ⟨n0, a0, hfin0⟩ := step_ok_to_finish cur target L amt 0 z res0 hamt h0
    have hn0 : res0.sqrtPriceX64Next = n0 :=
      finish_ok_next cur target L amt ((0 : ℕ) : ℤ) z true n0 a0 0 res0 hfin0
    obtain ⟨hIn00, hfee00, o0, hBo0, hout0⟩ :=
      finish_target_shape cur target L amt ((0 : ℕ) : ℤ) z n0 a0 0 res0
        (by omega) hfin0 (hn0.symm.trans hreach0)
    rw [hBo] at hBo0
    have ho : o = o0 := Except.ok.inj hBo0
    rw [hout, hout0, ho]

/-- C8 amended witness: the amended bound evaluated on the run from `2·2^64`
to `2^64` with liquidity 1000, amount `10^6` and fee rate 3000 ppm, which
reaches the target with amount-in 500, amount-out 900 and fee 2:
`10^6·2 ≤ 3000·502 + 10^6`. -/
theorem C8_fee_bound_amended_witness :
    1000000 * (2 : ℤ) ≤ (3000 : ℕ) * ((500 : ℤ) + 2) + 1000000 ∧
    (∀ res0 : WhirlpoolSwapStep,
      whirlpoolSwapStepComputePrecise (2 * 2 ^ 64) (2 ^ 64) 1000 (10 ^ 6) 0 true
        = .ok res0 →
      res0.sqrtPriceX64Next = 2 ^ 64 →
      (900 : ℤ) = res0.amountOut) :=
  C8_fee_bound_amended (2 * 2 ^ 64) (2 ^ 64) 1000 (10 ^ 6) 3000 true
    ⟨2 ^ 64, 500, 900, 2⟩ (by decide) (by decide) (by decide) rfl rfl

end SolRoute
